import Mathlib

/-!
Verification development for the CSV mean-imputation service
(`src/resources/activities/Claude Example/app.py`).

The core under study is `process_file`'s imputation section together with
`calculate_imputation_stats`.  The pandas data frame produced by
`pd.read_csv` is modelled as a `Table`: an ordered list of named columns,
each carrying its inferred dtype.  A column of dtype `int64` holds plain
integers (pandas integer columns cannot contain NaN), a column of dtype
`float64` holds optional rationals (`none` is NaN, i.e. a missing cell),
and an `object` column holds optional strings (`none` is NaN).  Rationals
stand in for IEEE doubles: every quantity the claims mention (sums, means,
counts, the rounded missing-data rate) is exact at the small scales of the
witnesses.

Column access by name in the source (`df[col]`) is modelled by
`Table.findData`, the first column with the given name, matching pandas
under the data-model invariant that column names are unique.
-/

/-- The cells of one column, tagged with the column's pandas dtype. -/
inductive ColData where
  | ints : List ℤ → ColData
  | floats : List (Option ℚ) → ColData
  | strs : List (Option String) → ColData
deriving DecidableEq, Repr

/-- A named column of a data frame. -/
structure Column where
  name : String
  data : ColData
deriving DecidableEq, Repr

/-- A pandas data frame: an ordered sequence of named columns. -/
structure Table where
  cols : List Column
deriving DecidableEq, Repr

/-- Number of cells in a column. -/
def ColData.length : ColData → ℕ
  | .ints l => l.length
  | .floats l => l.length
  | .strs l => l.length

/-- Row count `len(df)`: pandas reports the common row count; on the model it is the
length of the first column (0 for a frame with no columns). -/
def Table.numRows (t : Table) : ℕ :=
  match t.cols with
  | [] => 0
  | c :: _ => c.data.length

/-- Data frames are rectangular: every column has the common row count. -/
def Table.Rectangular (t : Table) : Prop :=
  ∀ c ∈ t.cols, c.data.length = t.numRows

/-- Dtype test behind `select_dtypes(include=[np.number])`: it keeps `int64` and `float64`
columns and drops `object` columns. -/
def Column.isNumeric (c : Column) : Bool :=
  match c.data with
  | .strs _ => false
  | _ => true

/-- The list `df.select_dtypes(include=[np.number]).columns.tolist()`. -/
def Table.numericNames (t : Table) : List String :=
  (t.cols.filter (fun c => c.isNumeric)).map (fun c => c.name)

/-- Column access `df[nm]` under unique column names: the first column called `nm`
(`.strs []` stands for the impossible key-miss). -/
def Table.findData (t : Table) (nm : String) : ColData :=
  match t.cols.find? (fun c => c.name = nm) with
  | some c => c.data
  | none => .strs []

/-- The test `series.isna().any()` for a float column: is some cell NaN? -/
def hasNone (l : List (Option ℚ)) : Bool :=
  l.any Option.isNone

/-- The mean `series.mean()` in pandas: NaN cells are skipped; the mean of zero
values is NaN (`none`). -/
def listMean (l : List (Option ℚ)) : Option ℚ :=
  let present := l.filterMap id
  if present.length = 0 then none
  else some (present.sum / (present.length : ℚ))

/-- The body of the imputation loop for one float column:
`if isna().any(): mean = col.mean(); if not isna(mean): fillna(mean)`.
An all-NaN column has NaN mean and is left untouched. -/
def imputeNumData (l : List (Option ℚ)) : List (Option ℚ) :=
  if hasNone l then
    match listMean l with
    | some m => l.map (fun v => some (v.getD m))
    | none => l
  else l

/-- The imputation loop on one column.  Integer columns contain no NaN, so
`isna().any()` is false and they are untouched; object columns are not in
`numeric_columns` at all. -/
def imputeColumn (c : Column) : Column :=
  match c.data with
  | .floats l => ⟨c.name, .floats (imputeNumData l)⟩
  | d => ⟨c.name, d⟩

/-- The count `series.isna().sum()` on the original column. -/
def ColData.missingCount : ColData → ℕ
  | .ints _ => 0
  | .floats l => l.countP (fun v => v.isNone)
  | .strs l => l.countP (fun v => v.isNone)

/-- The value `float(mean) if not pd.isna(mean) else 0.0` on an original column:
pandas means skip NaN, and an empty value set yields NaN, mapped to 0. -/
def ColData.meanOrZero : ColData → ℚ
  | .ints l => if l.length = 0 then 0 else (l.map (fun (n : ℤ) => (n : ℚ))).sum / (l.length : ℚ)
  | .floats l => (listMean l).getD 0
  | .strs _ => 0

/-- Rounding `round(x, 2)` modelled on exact rationals: round `100·x` to the
nearest integer and divide back. -/
def round2 (q : ℚ) : ℚ :=
  ((round (q * 100) : ℤ) : ℚ) / 100

/-- The statistics dictionary of `calculate_imputation_stats`. -/
structure Report where
  total_rows : ℕ
  total_columns : ℕ
  numeric_columns : ℕ
  column_means : List (String × ℚ)
  imputed_counts : List (String × ℕ)
  total_imputations : ℕ
  missing_data_rate : ℚ
deriving DecidableEq, Repr

/-- The function `calculate_imputation_stats(original_df, processed_df, numeric_columns)`.
Every statistic is read from `original_df`; the `processed` argument is
unused, exactly as in the source. -/
def calculateImputationStats (orig : Table) (processed : Table)
    (numericNames : List String) : Report :=
  let _ := processed
  let counts := numericNames.map (fun nm => (nm, (orig.findData nm).missingCount))
  let means := numericNames.map (fun nm => (nm, (orig.findData nm).meanOrZero))
  let total := (counts.map (fun p => p.2)).sum
  let cells := orig.numRows * numericNames.length
  { total_rows := orig.numRows
    total_columns := orig.cols.length
    numeric_columns := numericNames.length
    column_means := means
    imputed_counts := counts
    total_imputations := total
    missing_data_rate := if 0 < cells then round2 ((total : ℚ) / (cells : ℚ) * 100) else 0 }

/-- One serialized preview value, as jsonify renders it. -/
inductive JsonVal where
  | null : JsonVal
  | int : ℤ → JsonVal
  | float : ℚ → JsonVal
  | str : String → JsonVal
deriving DecidableEq, Repr

/-- The common dtype `iterrows` upcasts each row to.  `iterrows` builds
every row from the frame's backing array, which has the lowest common
dtype of the columns: `object` as soon as any `object` column exists,
else `float64` if any `float64` column exists, else `int64`. -/
inductive RowKind where
  | asInt : RowKind
  | asFloat : RowKind
  | asObj : RowKind
deriving DecidableEq, Repr

/-- The row dtype of a frame under `iterrows`. -/
def Table.rowKind (t : Table) : RowKind :=
  if t.cols.any (fun c => match c.data with | .strs _ => true | _ => false) then .asObj
  else if t.cols.any (fun c => match c.data with | .floats _ => true | _ => false) then
    .asFloat
  else .asInt

/-- Python's `str()` of a float, on the values where the rational
idealization of doubles is exact: a rational with a terminating decimal
expansion renders as sign, integer digits, point, fraction digits, with
`.0` for integral values (`"30.0"`, `"2.5"`, `"-0.25"`) — exactly the
shortest round-trip repr Python prints for such a double.  A rational
with no terminating expansion (where the double is inexact and its digits
depend on binary rounding) falls back to a fraction form; no theorem
depends on that case's digits. -/
def floatStr (q : ℚ) : String :=
  match (List.range 64).find? (fun k => (q * (10 : ℚ) ^ k).den = 1) with
  | some 0 => toString q.num ++ ".0"
  | some (k + 1) =>
      let m := (q * (10 : ℚ) ^ (k + 1)).num
      let s0 := toString m.natAbs
      let s := if s0.length < k + 2 then
          String.mk (List.replicate (k + 2 - s0.length) '0') ++ s0
        else s0
      (if q.num < 0 then "-" else "") ++
        s.take (s.length - (k + 1)) ++ "." ++ s.drop (s.length - (k + 1))
  | none => toString q.num ++ "/" ++ toString q.den

/-- Serialization of row `i`, column `c` of the preview frame, given the
row dtype `k` that `iterrows` produced:
* `asInt` (frame of only `int64` columns): cells arrive as `np.int64`
  and serialize as `int(value)`;
* `asFloat` (all-numeric frame with a `float64` column): every cell is
  upcast to `np.float64`; NaN serializes as null and every value — the
  integer-column cells included — as `float(value)`;
* `asObj` (some `object` column exists): cells are boxed to Python
  scalars, which match neither `np.integer` nor `np.floating`, so NaN
  serializes as null and every other value falls through to
  `str(value)`.
The unreachable combinations (a float or object column in an `asInt`
row, an object column in an `asFloat` row — impossible when `k` is the
frame's own row dtype) default to null. -/
def cellJson (k : RowKind) (c : Column) (i : ℕ) : JsonVal :=
  match k, c.data with
  | .asInt, .ints l =>
      match l[i]? with
      | some n => .int n
      | none => .null
  | .asFloat, .ints l =>
      match l[i]? with
      | some n => .float (n : ℚ)
      | none => .null
  | .asFloat, .floats l =>
      match l[i]? with
      | some (some q) => .float q
      | _ => .null
  | .asObj, .ints l =>
      match l[i]? with
      | some n => .str (toString n)
      | none => .null
  | .asObj, .floats l =>
      match l[i]? with
      | some (some q) => .str (floatStr q)
      | _ => .null
  | .asObj, .strs l =>
      match l[i]? with
      | some (some s) => .str s
      | _ => .null
  | _, _ => .null

/-- The preview `processed_df.head(limit)` rendered row by row via
`iterrows`: for each of the first `min(limit, numRows)` rows, the mapping
from column name to serialized value, the cells upcast to the frame's row
dtype (the source fixes `limit = 50`). -/
def previewRows (t : Table) (limit : ℕ) : List (List (String × JsonVal)) :=
  (List.range (min limit t.numRows)).map
    (fun i => t.cols.map (fun c => (c.name, cellJson t.rowKind c i)))

/-- The mask `series.isna()` as a boolean list (all false on an integer column). -/
def ColData.missingFlags : ColData → List Bool
  | .ints l => l.map (fun _ => false)
  | .floats l => l.map Option.isNone
  | .strs l => l.map Option.isNone

/-- The mapping `imputation_flags`: for each name in `numeric_columns`, the first
`limit` entries of `original_df[col].isna()`. -/
def imputationFlags (orig : Table) (numericNames : List String) (limit : ℕ) :
    List (String × List Bool) :=
  numericNames.map (fun nm => (nm, ((orig.findData nm).missingFlags).take limit))

/-- The typed failure of the imputation engine. -/
inductive ImputeError where
  | noNumericData : ImputeError
deriving DecidableEq, Repr

/-- Everything `/api/process` returns about one run. -/
structure ProcessResult where
  stats : Report
  preview_data : List (List (String × JsonVal))
  imputation_flags : List (String × List Bool)
  processed : Table
deriving DecidableEq, Repr

/-- The imputation core of `process_file`: copy the frame, select numeric
columns, fail with `NoNumericData` if there are none, run the fill loop on
the copy, then compute statistics, preview and flags. -/
def processTable (t : Table) : Except ImputeError ProcessResult :=
  let numericNames := t.numericNames
  if numericNames.isEmpty then .error .noNumericData
  else
    let processed : Table := ⟨t.cols.map imputeColumn⟩
    .ok
      { stats := calculateImputationStats t processed numericNames
        preview_data := previewRows processed 50
        imputation_flags := imputationFlags t numericNames 50
        processed := processed }

/-!
### Dtype inference at load time

`pd.read_csv` decides each column's dtype from its raw tokens: a column
whose fields are all present integer literals becomes `int64`; a column
whose non-empty fields are all numeric literals (this includes a column of
only empty fields, which becomes all-NaN `float64`) becomes `float64`;
anything else becomes `object`.  Empty fields are NaN in float and object
columns alike.  We model a raw field as `Option String` (`none` = empty
field) and numeric-literal recognition as a decimal parser with optional
sign and fraction part.
-/

/-- Is every character a decimal digit? -/
def allDigits (cs : List Char) : Bool :=
  cs.all (fun c => c.isDigit)

/-- The natural number denoted by a digit string. -/
def digitsToNat (cs : List Char) : ℕ :=
  cs.foldl (fun a c => a * 10 + (c.toNat - 48)) 0

/-- Split at the first decimal point, if any. -/
def splitAtDot : List Char → List Char × Option (List Char)
  | [] => ([], none)
  | c :: rest =>
      if c = '.' then ([], some rest)
      else
        let p := splitAtDot rest
        (c :: p.1, p.2)

/-- An unsigned integer literal: one or more digits. -/
def parseUInt (cs : List Char) : Option ℕ :=
  if cs.isEmpty then none
  else if allDigits cs then some (digitsToNat cs) else none

/-- An unsigned numeric literal: digits with an optional fraction part
(`"25"`, `"2.5"`, `"2."`, `".5"`). -/
def parseUNum (cs : List Char) : Option ℚ :=
  match splitAtDot cs with
  | (a, none) => (parseUInt a).map (fun n => (n : ℚ))
  | (a, some b) =>
      if a.isEmpty && b.isEmpty then none
      else if allDigits a && allDigits b then
        some ((digitsToNat a : ℚ) + (digitsToNat b : ℚ) / (10 : ℚ) ^ b.length)
      else none

/-- Strip one optional sign character. -/
def signSplit : List Char → Bool × List Char
  | '-' :: rest => (true, rest)
  | '+' :: rest => (false, rest)
  | cs => (false, cs)

/-- Token interpretable as a number (the float-literal shape `read_csv`
accepts for a numeric dtype). -/
def parseNum (s : String) : Option ℚ :=
  let p := signSplit s.toList
  (parseUNum p.2).map (fun q => if p.1 then -q else q)

/-- Token interpretable as an integer literal (no decimal point). -/
def parseIntTok (s : String) : Option ℤ :=
  let p := signSplit s.toList
  (parseUInt p.2).map (fun (n : ℕ) => if p.1 then -(n : ℤ) else (n : ℤ))

/-- Is a raw field an integer literal?  An empty field is not. -/
def tokInt : Option String → Bool
  | none => false
  | some s => (parseIntTok s).isSome

/-- Is a raw field compatible with a numeric dtype?  An empty field is
(it parses as NaN). -/
def tokOk : Option String → Bool
  | none => true
  | some s => (parseNum s).isSome

/-- Dtype inference for one raw column, as `pd.read_csv` performs it. -/
def inferColData (raw : List (Option String)) : ColData :=
  if raw.all tokInt then
    .ints (raw.map (fun t => ((t.bind (fun s => parseIntTok s)).getD 0)))
  else if raw.all tokOk then
    .floats (raw.map (fun t => t.bind (fun s => parseNum s)))
  else
    .strs raw

/-- A parsed column: its name together with its inferred data. -/
def inferColumn (name : String) (raw : List (Option String)) : Column :=
  ⟨name, inferColData raw⟩

/-!
### Spec-side notions

These definitions follow the wording of the specification and are compared
with the source-derived definitions above in the claim theorems.
-/

/-- Does the column contain a missing cell? -/
def ColData.hasMissing : ColData → Bool
  | .ints _ => false
  | .floats l => l.any Option.isNone
  | .strs l => l.any Option.isNone

/-- The non-missing numeric values of a column, in row order. -/
def ColData.presentVals : ColData → List ℚ
  | .ints l => l.map (fun (n : ℤ) => (n : ℚ))
  | .floats l => l.filterMap id
  | .strs _ => []

/-- The spec's mean: 0 for an empty value set, else sum over count. -/
def specMean (vals : List ℚ) : ℚ :=
  if vals.length = 0 then 0 else vals.sum / (vals.length : ℚ)

/-- A numeric column the fill loop can actually fill: either it has no
missing cell, or it has at least one present value to average. -/
def ColData.fillable : ColData → Bool
  | .floats l => !(l.any Option.isNone) || l.any Option.isSome
  | _ => true

/-- Is a serialized preview value an integer? -/
def JsonVal.isIntVal : JsonVal → Bool
  | .int _ => true
  | _ => false

/-!
### Heap model of the imperative core

`process_file` mutates Python objects: `processed_df = original_df.copy()`
allocates a fresh frame and `fillna(..., inplace=True)` writes to it.  To
state that the original frame is never written, frames live in a heap of
allocated DataFrame objects addressed by allocation index, and the fill
loop is a sequence of in-place writes through the `processed_df`
reference. -/
abbrev Heap := List Table

/-- Dereference a DataFrame object (the dummy for a dangling reference is
never hit in the theorems). -/
def heapGet (h : Heap) (r : ℕ) : Table :=
  h.getD r ⟨[]⟩

/-- Overwrite the object at address `r` in place. -/
def heapSet (h : Heap) (r : ℕ) (t : Table) : Heap :=
  h.set r t

/-- One iteration of the fill loop on the frame at address `r`: if column
`j` is numeric, run the conditional mean-fill on it in place. -/
def heapFillStep (h : Heap) (r : ℕ) (j : ℕ) : Heap :=
  let t := heapGet h r
  match t.cols.get? j with
  | some c => if c.isNumeric then heapSet h r ⟨t.cols.set j (imputeColumn c)⟩ else h
  | none => h

/-- The fill loop over the first `n` columns of the frame at `r`. -/
def heapFillLoop (h : Heap) (r : ℕ) : ℕ → Heap
  | 0 => h
  | j + 1 => heapFillStep (heapFillLoop h r j) r j

/-- The imperative core of `process_file` on the heap: copy the original
frame, select numeric columns from the copy, fill the copy in place, then
compute the statistics by reading the original frame again.  Returns the
final heap, the address of the processed frame, and the report. -/
def processHeap (h : Heap) (orig : ℕ) : Except ImputeError (Heap × ℕ × Report) :=
  let h1 := h ++ [heapGet h orig]
  let proc := h.length
  let numericNames := (heapGet h1 proc).numericNames
  if numericNames.isEmpty then .error .noNumericData
  else
    let h2 := heapFillLoop h1 proc (heapGet h1 proc).cols.length
    .ok (h2, proc, calculateImputationStats (heapGet h2 orig) (heapGet h2 proc) numericNames)

/-!
### Concrete tables

`ageTable` is the spec's own scenario (`age = [25, missing, 35, missing]`);
`ageResult` is what processing it returns.  The other tables exercise the
edge cases the claims turn on.
-/

/-- The spec's scenario table. -/
def ageTable : Table := ⟨[⟨"age", .floats [some 25, none, some 35, none]⟩]⟩

/-- The result of processing `ageTable`. -/
def ageResult : ProcessResult :=
  { stats :=
      { total_rows := 4
        total_columns := 1
        numeric_columns := 1
        column_means := [("age", 30)]
        imputed_counts := [("age", 2)]
        total_imputations := 2
        missing_data_rate := 50 }
    preview_data :=
      [[("age", .float 25)], [("age", .float 30)], [("age", .float 35)], [("age", .float 30)]]
    imputation_flags := [("age", [false, true, false, true])]
    processed := ⟨[⟨"age", .floats [some 25, some 30, some 35, some 30]⟩]⟩ }

/-- A table whose single (numeric, float-dtyped) column is entirely
missing, as `read_csv` produces for a column of empty fields. -/
def allMissingTable : Table := ⟨[⟨"a", .floats [none]⟩]⟩

/-- A table with no numeric columns. -/
def textOnlyTable : Table := ⟨[⟨"name", .strs [some "alice"]⟩]⟩

/-- An integer-dtyped table without missing cells. -/
def intTable : Table := ⟨[⟨"x", .ints [1, 2]⟩]⟩

/-- The result of processing `intTable`: nothing to fill. -/
def intResult : ProcessResult :=
  { stats :=
      { total_rows := 2
        total_columns := 1
        numeric_columns := 1
        column_means := [("x", 3 / 2)]
        imputed_counts := [("x", 0)]
        total_imputations := 0
        missing_data_rate := 0 }
    preview_data := [[("x", .int 1)], [("x", .int 2)]]
    imputation_flags := [("x", [false, false])]
    processed := intTable }

/-!
### Lemmas about dtype inference
-/

lemma splitAtDot_of_allDigits (cs : List Char) (h : allDigits cs = true) :
    splitAtDot cs = (cs, none) := by
  induction cs with
  | nil => rfl
  | cons c rest ih =>
      have h' : c.isDigit = true ∧ allDigits rest = true := by
        simpa [allDigits] using h
      have hc : ¬(c = '.') := by
        intro he
        rw [he] at h'
        exact absurd h'.1 (by decide)
      simp only [splitAtDot, if_neg hc, ih h'.2]

lemma parseUNum_of_parseUInt (cs : List Char) (h : (parseUInt cs).isSome = true) :
    (parseUNum cs).isSome = true := by
  by_cases he : cs.isEmpty
  · simp [parseUInt, he] at h
  · by_cases hd : allDigits cs
    · unfold parseUNum
      rw [splitAtDot_of_allDigits cs hd]
      simp [parseUInt, he, hd]
    · simp [parseUInt, he, hd] at h

lemma parseNum_of_parseIntTok (s : String) (h : (parseIntTok s).isSome = true) :
    (parseNum s).isSome = true := by
  unfold parseIntTok at h
  unfold parseNum
  rw [Option.isSome_map'] at h ⊢
  exact parseUNum_of_parseUInt _ h

lemma tokOk_of_tokInt (t : Option String) (h : tokInt t = true) : tokOk t = true := by
  cases t with
  | none => simp [tokInt] at h
  | some s => exact parseNum_of_parseIntTok s h

lemma isNumeric_inferColumn (nm : String) (raw : List (Option String)) :
    (inferColumn nm raw).isNumeric = raw.all tokOk := by
  unfold inferColumn inferColData
  by_cases hint : raw.all tokInt
  · rw [if_pos hint]
    have : raw.all tokOk = true :=
      List.all_eq_true.mpr (fun t ht => tokOk_of_tokInt t (List.all_eq_true.mp hint t ht))
    simp [Column.isNumeric, this]
  · rw [if_neg hint]
    by_cases hok : raw.all tokOk
    · simp [hok, Column.isNumeric]
    · simp only [if_neg hok, Column.isNumeric]
      exact (Bool.eq_false_iff.mpr hok).symm

/-!
### Lemmas about the heap model
-/

lemma heapGet_set_ne (h : Heap) (r j : ℕ) (t : Table) (hne : r ≠ j) :
    heapGet (heapSet h r t) j = heapGet h j := by
  unfold heapGet heapSet
  rw [List.getD_eq_getElem?_getD, List.getD_eq_getElem?_getD, List.getElem?_set_ne hne]

lemma heapFillStep_frame (h : Heap) (r j o : ℕ) (ho : r ≠ o) :
    heapGet (heapFillStep h r j) o = heapGet h o := by
  unfold heapFillStep
  cases hc : (heapGet h r).cols.get? j with
  | none => simp only [hc]
  | some c =>
      simp only [hc]
      by_cases hn : c.isNumeric = true
      · rw [if_pos hn]
        exact heapGet_set_ne h r o _ ho
      · rw [if_neg hn]

lemma heapFillLoop_frame (h : Heap) (r o : ℕ) (n : ℕ) (ho : r ≠ o) :
    heapGet (heapFillLoop h r n) o = heapGet h o := by
  induction n with
  | zero => rfl
  | succ n ih =>
      show heapGet (heapFillStep (heapFillLoop h r n) r n) o = heapGet h o
      rw [heapFillStep_frame _ _ _ _ ho, ih]

lemma heapGet_append_lt (h : Heap) (t : Table) (o : ℕ) (ho : o < h.length) :
    heapGet (h ++ [t]) o = heapGet h o := by
  unfold heapGet
  rw [List.getD_eq_getElem?_getD, List.getD_eq_getElem?_getD, List.getElem?_append_left ho]

lemma heapGet_append_self (h : Heap) (t : Table) :
    heapGet (h ++ [t]) h.length = t := by
  unfold heapGet
  rw [List.getD_eq_getElem?_getD, List.getElem?_concat_length]
  rfl

/-!
### Basic lemmas about the engine
-/

lemma imputeColumn_name (c : Column) : (imputeColumn c).name = c.name := by
  cases c with
  | mk nm d => cases d <;> simp [imputeColumn]

lemma imputeColumn_isNumeric (c : Column) : (imputeColumn c).isNumeric = c.isNumeric := by
  cases c with
  | mk nm d => cases d <;> simp [imputeColumn, Column.isNumeric]

lemma imputeNumData_length (l : List (Option ℚ)) : (imputeNumData l).length = l.length := by
  unfold imputeNumData
  by_cases h : hasNone l
  · simp only [h, if_true]
    cases hm : listMean l <;> simp
  · simp [h]

lemma imputeColumn_length (c : Column) : (imputeColumn c).data.length = c.data.length := by
  cases c with
  | mk nm d => cases d <;> simp [imputeColumn, ColData.length, imputeNumData_length]

lemma imputeNumData_of_no_missing (l : List (Option ℚ)) (h : hasNone l = false) :
    imputeNumData l = l := by
  simp [imputeNumData, h]

lemma imputeColumn_of_no_missing (c : Column) (h : c.data.hasMissing = false) :
    imputeColumn c = c := by
  cases c with
  | mk nm d =>
    cases d with
    | ints l => simp [imputeColumn]
    | floats l =>
        simp only [ColData.hasMissing] at h
        simp [imputeColumn, imputeNumData_of_no_missing l (by simp [hasNone, h])]
    | strs l => simp [imputeColumn]

lemma listMean_isSome (l : List (Option ℚ)) (h : l.any Option.isSome = true) :
    (listMean l).isSome = true := by
  unfold listMean
  rcases List.any_eq_true.mp h with ⟨x, hx, hsome⟩
  cases x with
  | none => simp at hsome
  | some q =>
    have hq : q ∈ l.filterMap id := List.mem_filterMap.mpr ⟨some q, hx, rfl⟩
    have : l.filterMap id ≠ [] := List.ne_nil_of_mem hq
    simp [List.length_eq_zero, this]

lemma fillna_no_none (l : List (Option ℚ)) (m : ℚ) :
    (l.map (fun v => some (v.getD m))).any Option.isNone = false := by
  induction l with
  | nil => simp
  | cons x xs ih => simp [ih]

lemma imputeNumData_no_missing (l : List (Option ℚ))
    (h : ColData.fillable (.floats l) = true) :
    (imputeNumData l).any Option.isNone = false := by
  unfold imputeNumData
  by_cases hn : hasNone l
  · have hsome : l.any Option.isSome = true := by
      have hn' : l.any Option.isNone = true := hn
      simpa [ColData.fillable, hn'] using h
    rcases Option.isSome_iff_exists.mp (listMean_isSome l hsome) with ⟨m, hm⟩
    simp only [hn, if_true, hm]
    exact fillna_no_none l m
  · rw [if_neg hn]
    exact Bool.eq_false_iff.mpr hn

lemma imputeNumData_idem (l : List (Option ℚ)) :
    imputeNumData (imputeNumData l) = imputeNumData l := by
  by_cases hn : hasNone l
  · cases hm : listMean l with
    | none =>
        have hres : imputeNumData l = l := by simp [imputeNumData, hn, hm]
        rw [hres]
        exact hres
    | some m =>
        have hres : imputeNumData l = l.map (fun v => some (v.getD m)) := by
          simp [imputeNumData, hn, hm]
        rw [hres]
        exact imputeNumData_of_no_missing _ (fillna_no_none l m)
  · rw [imputeNumData_of_no_missing l (by simpa using hn)]
    exact imputeNumData_of_no_missing l (by simpa using hn)

lemma imputeColumn_idem (c : Column) : imputeColumn (imputeColumn c) = imputeColumn c := by
  cases c with
  | mk nm d => cases d <;> simp [imputeColumn, imputeNumData_idem]

lemma numericNames_map_impute (t : Table) :
    (Table.mk (t.cols.map imputeColumn)).numericNames = t.numericNames := by
  unfold Table.numericNames
  induction t.cols with
  | nil => simp
  | cons c cs ih =>
      simp only [List.map_cons, List.filter_cons, imputeColumn_isNumeric]
      by_cases hc : c.isNumeric
      · simp [hc, imputeColumn_name, ih]
      · simp [hc, ih]

lemma numRows_map_impute (t : Table) :
    (Table.mk (t.cols.map imputeColumn)).numRows = t.numRows := by
  unfold Table.numRows
  cases t.cols with
  | nil => simp
  | cons c cs => simp [imputeColumn_length]

lemma meanOrZero_eq_specMean (d : ColData) : d.meanOrZero = specMean d.presentVals := by
  cases d with
  | ints l =>
      show (if l.length = 0 then 0 else (l.map (fun (n : ℤ) => (n : ℚ))).sum / (l.length : ℚ))
        = specMean (l.map (fun (n : ℤ) => (n : ℚ)))
      unfold specMean
      rw [List.length_map]
  | floats l =>
      show (listMean l).getD 0 = specMean (l.filterMap id)
      unfold listMean specMean
      by_cases h : (l.filterMap id).length = 0
      · simp [h]
      · simp [h]
  | strs l => simp [ColData.meanOrZero, ColData.presentVals, specMean]

lemma missingCount_impute_eq_zero (c : Column) (hnum : c.isNumeric = true)
    (hfill : c.data.fillable = true) : (imputeColumn c).data.missingCount = 0 := by
  cases c with
  | mk nm d =>
    cases d with
    | ints l => simp [imputeColumn, ColData.missingCount]
    | floats l =>
        simp only [imputeColumn, ColData.missingCount]
        have h := imputeNumData_no_missing l hfill
        rw [List.any_eq_false] at h
        exact List.countP_eq_zero.mpr (fun v hv => by simpa using h v hv)
    | strs l => simp [Column.isNumeric] at hnum

lemma find?_name_of_nodup {cols : List Column} {c : Column}
    (h : (cols.map (fun x => x.name)).Nodup) (hc : c ∈ cols) :
    cols.find? (fun x => x.name = c.name) = some c := by
  induction cols with
  | nil => simp at hc
  | cons d rest ih =>
      rcases List.mem_cons.mp hc with rfl | hmem
      · simp [List.find?_cons]
      · by_cases hd : d.name = c.name
        · exfalso
          have hcn : c.name ∈ rest.map (fun x => x.name) :=
            List.mem_map.mpr ⟨c, hmem, rfl⟩
          have := (List.nodup_cons.mp h).1
          exact this (by show d.name ∈ _; rw [hd]; exact hcn)
        · have := ih (List.nodup_cons.mp h).2 hmem
          simp [List.find?_cons, hd, this]

lemma findData_of_nodup {t : Table} {c : Column}
    (h : (t.cols.map (fun x => x.name)).Nodup) (hc : c ∈ t.cols) :
    t.findData c.name = c.data := by
  unfold Table.findData
  rw [find?_name_of_nodup h hc]

lemma mem_numericNames {t : Table} {c : Column} (hc : c ∈ t.cols)
    (hnum : c.isNumeric = true) : c.name ∈ t.numericNames := by
  unfold Table.numericNames
  exact List.mem_map.mpr ⟨c, List.mem_filter.mpr ⟨hc, by simp [hnum]⟩, rfl⟩

lemma numericNames_nodup {t : Table} (h : (t.cols.map (fun x => x.name)).Nodup) :
    t.numericNames.Nodup := by
  unfold Table.numericNames
  exact List.Nodup.sublist ((List.filter_sublist t.cols).map (fun x => x.name)) h

lemma lookup_map_of_nodup {β : Type} (f : String → β) (l : List String) (nm : String)
    (h : l.Nodup) (hm : nm ∈ l) :
    List.lookup nm (l.map (fun x => (x, f x))) = some (f nm) := by
  induction l with
  | nil => simp at hm
  | cons a rest ih =>
      rcases List.mem_cons.mp hm with rfl | hmem
      · simp [List.lookup]
      · have hne : (nm == a) = false := by
          have : nm ≠ a := fun he => (List.nodup_cons.mp h).1 (he ▸ hmem)
          simpa using this
        simp only [List.map_cons, List.lookup, hne]
        exact ih (List.nodup_cons.mp h).2 hmem

lemma processTable_ok {t : Table} {r : ProcessResult} (h : processTable t = .ok r) :
    t.numericNames ≠ [] ∧
    r.processed = ⟨t.cols.map imputeColumn⟩ ∧
    r.stats = calculateImputationStats t ⟨t.cols.map imputeColumn⟩ t.numericNames ∧
    r.preview_data = previewRows ⟨t.cols.map imputeColumn⟩ 50 ∧
    r.imputation_flags = imputationFlags t t.numericNames 50 := by
  unfold processTable at h
  by_cases he : t.numericNames.isEmpty
  · rw [if_pos he] at h
    exact absurd h (by simp)
  · rw [if_neg he] at h
    have h' :
        (Except.ok
          { stats := calculateImputationStats t ⟨t.cols.map imputeColumn⟩ t.numericNames
            preview_data := previewRows ⟨t.cols.map imputeColumn⟩ 50
            imputation_flags := imputationFlags t t.numericNames 50
            processed := ⟨t.cols.map imputeColumn⟩ } :
          Except ImputeError ProcessResult) = .ok r := h
    cases Except.ok.inj h'
    exact ⟨by simpa [List.isEmpty_iff] using he, rfl, rfl, rfl, rfl⟩

lemma missingCount_eq_zero (d : ColData) (h : d.hasMissing = false) :
    d.missingCount = 0 := by
  cases d with
  | ints l => simp [ColData.missingCount]
  | floats l =>
      simp only [ColData.hasMissing, List.any_eq_false] at h
      simp only [ColData.missingCount]
      exact List.countP_eq_zero.mpr (fun v hv => by simpa using h v hv)
  | strs l =>
      simp only [ColData.hasMissing, List.any_eq_false] at h
      simp only [ColData.missingCount]
      exact List.countP_eq_zero.mpr (fun v hv => by simpa using h v hv)

lemma find?_name_map_impute (cols : List Column) (nm : String) :
    (cols.map imputeColumn).find? (fun c => c.name = nm) =
      (cols.find? (fun c => c.name = nm)).map imputeColumn := by
  rw [List.find?_map]
  have hcomp : ((fun c : Column => decide (c.name = nm)) ∘ imputeColumn)
      = (fun c : Column => decide (c.name = nm)) := by
    funext c
    simp [Function.comp, imputeColumn_name]
  rw [hcomp]

lemma findData_map_impute {t : Table} {c : Column}
    (h : (t.cols.map (fun x => x.name)).Nodup) (hc : c ∈ t.cols) :
    Table.findData ⟨t.cols.map imputeColumn⟩ c.name = (imputeColumn c).data := by
  unfold Table.findData
  rw [find?_name_map_impute, find?_name_of_nodup h hc]
  rfl

lemma previewRows_length (t : Table) (limit : ℕ) :
    (previewRows t limit).length = min limit t.numRows := by
  simp [previewRows]

lemma processTable_ageTable : processTable ageTable = .ok ageResult := by
  simp [processTable, ageTable, ageResult, Table.numericNames, Column.isNumeric,
    Table.numRows, imputeColumn, imputeNumData, hasNone, listMean,
    calculateImputationStats, Table.findData, ColData.missingCount,
    ColData.meanOrZero, round2, previewRows, cellJson, Table.rowKind, ColData.missingFlags,
    imputationFlags, List.range, List.range.loop, ColData.length]
  norm_num

lemma processTable_allMissingTable :
    processTable allMissingTable = .ok
      { stats :=
          { total_rows := 1
            total_columns := 1
            numeric_columns := 1
            column_means := [("a", 0)]
            imputed_counts := [("a", 1)]
            total_imputations := 1
            missing_data_rate := 100 }
        preview_data := [[("a", .null)]]
        imputation_flags := [("a", [true])]
        processed := allMissingTable } := by
  simp [processTable, allMissingTable, Table.numericNames, Column.isNumeric,
    Table.numRows, imputeColumn, imputeNumData, hasNone, listMean,
    calculateImputationStats, Table.findData, ColData.missingCount,
    ColData.meanOrZero, round2, previewRows, cellJson, Table.rowKind, ColData.missingFlags,
    imputationFlags, List.range, List.range.loop, ColData.length]
  norm_num

/-!
### Claim theorems
-/

/-- C1, counterexample: the claim "after `impute` no missing cells remain
in any numeric column (an all-missing column is filled with mean 0.0)" is
false.  On a table whose single numeric column is entirely missing,
`impute` succeeds but the fill is skipped (`pd.isna(mean_value)` is true),
so the processed table still has a missing cell in a numeric column and no
0.0 is ever written. -/
theorem impute_leaves_all_missing_column :
    (processTable allMissingTable).toOption.map
        (fun r => r.processed.cols.map (fun c => (c.isNumeric, c.data.hasMissing)))
      = some [(true, true)] := by
  rw [processTable_allMissingTable]
  rfl

/-- C1, amended: after `impute`, no missing cells remain in any numeric
column that is not entirely missing (an entirely-missing numeric column
keeps all its missing cells; no 0.0 fill happens). -/
theorem impute_no_missing_in_fillable_numeric (t : Table) (r : ProcessResult)
    (j : ℕ) (c : Column) (h : processTable t = .ok r)
    (hj : t.cols[j]? = some c) (hnum : c.isNumeric = true)
    (hfill : c.data.fillable = true) :
    ∃ c2 : Column, r.processed.cols[j]? = some c2 ∧ c2.name = c.name ∧
      c2.data.hasMissing = false := by
  obtain ⟨-, hproc, -, -, -⟩ := processTable_ok h
  refine ⟨imputeColumn c, ?_, imputeColumn_name c, ?_⟩
  · rw [hproc]
    show (t.cols.map imputeColumn)[j]? = _
    rw [List.getElem?_map, hj]
    rfl
  · cases c with
    | mk nm d =>
      cases d with
      | ints l => simp [imputeColumn, ColData.hasMissing]
      | floats l =>
          simp only [imputeColumn, ColData.hasMissing]
          exact imputeNumData_no_missing l hfill
      | strs l => simp [Column.isNumeric] at hnum

/-- Witness for the amended C1 at the spec's scenario table. -/
theorem impute_no_missing_in_fillable_numeric_witness :
    processTable ageTable = .ok ageResult ∧
    (∃ c2 : Column, ageResult.processed.cols[0]? = some c2 ∧
      c2.name = "age" ∧ c2.data.hasMissing = false) :=
  ⟨processTable_ageTable,
    impute_no_missing_in_fillable_numeric ageTable ageResult 0
      ⟨"age", .floats [some 25, none, some 35, none]⟩ processTable_ageTable rfl rfl rfl⟩

/-- C2: on a table with zero numeric columns, `impute` fails with the
`NoNumericData` error; no processed table and no report are produced (the
error carries neither). -/
theorem impute_fails_without_numeric (t : Table) (h : t.numericNames = []) :
    processTable t = .error .noNumericData := by
  simp [processTable, h]

/-- Witness for C2 on a text-only table. -/
theorem impute_fails_without_numeric_witness :
    textOnlyTable.numericNames = [] ∧
    processTable textOnlyTable = .error .noNumericData :=
  ⟨rfl, impute_fails_without_numeric textOnlyTable rfl⟩

/-- C3: the reported mean of a numeric column equals the arithmetic mean
of exactly the non-missing values of that column in the original table
(0 when there are none).  The statistics are computed from the original
frame, so imputed values never feed back into the mean. -/
theorem column_means_from_original (t : Table) (r : ProcessResult) (c : Column)
    (h : processTable t = .ok r)
    (hnodup : (t.cols.map (fun x => x.name)).Nodup)
    (hc : c ∈ t.cols) (hnum : c.isNumeric = true) :
    List.lookup c.name r.stats.column_means = some (specMean c.data.presentVals) := by
  obtain ⟨-, -, hstats, -, -⟩ := processTable_ok h
  rw [hstats]
  show List.lookup c.name
      (t.numericNames.map (fun nm => (nm, (t.findData nm).meanOrZero))) = _
  rw [lookup_map_of_nodup (fun nm => (t.findData nm).meanOrZero) t.numericNames c.name
        (numericNames_nodup hnodup) (mem_numericNames hc hnum)]
  rw [findData_of_nodup hnodup hc, meanOrZero_eq_specMean]

/-- Witness for C3 at the spec's scenario table. -/
theorem column_means_from_original_witness :
    processTable ageTable = .ok ageResult ∧
    List.lookup "age" ageResult.stats.column_means
      = some (specMean (ColData.presentVals (.floats [some 25, none, some 35, none]))) :=
  ⟨processTable_ageTable,
    column_means_from_original ageTable ageResult
      ⟨"age", .floats [some 25, none, some 35, none]⟩ processTable_ageTable
      (by decide) (List.mem_singleton.mpr rfl) rfl⟩

/-- C4: the missing-data rate is the number of imputations over the number
of numeric cells, times 100, rounded to two decimals; it is 0 whenever the
table has zero rows or zero numeric columns, so no division by zero
occurs. -/
theorem missing_data_rate_formula (orig processed : Table) (names : List String) :
    ((calculateImputationStats orig processed names).total_rows = 0 ∨
      (calculateImputationStats orig processed names).numeric_columns = 0 →
      (calculateImputationStats orig processed names).missing_data_rate = 0) ∧
    (0 < (calculateImputationStats orig processed names).total_rows *
        (calculateImputationStats orig processed names).numeric_columns →
      (calculateImputationStats orig processed names).missing_data_rate =
        round2
          (((calculateImputationStats orig processed names).total_imputations : ℚ) /
            (((calculateImputationStats orig processed names).total_rows *
              (calculateImputationStats orig processed names).numeric_columns : ℕ) : ℚ) *
            100)) := by
  constructor
  · intro h0
    have hcells : orig.numRows * names.length = 0 := by
      rcases h0 with h | h
      · simp only [calculateImputationStats] at h
        simp [h]
      · simp only [calculateImputationStats] at h
        simp [h]
    simp [calculateImputationStats, hcells]
  · intro hpos
    have hpos' : 0 < orig.numRows * names.length := by
      simpa [calculateImputationStats] using hpos
    simp [calculateImputationStats, hpos']

/-- Witness for C4 at the spec's scenario table (4 rows, 1 numeric column,
2 imputations). -/
theorem missing_data_rate_formula_witness :
    0 < (calculateImputationStats ageTable ageTable ["age"]).total_rows *
        (calculateImputationStats ageTable ageTable ["age"]).numeric_columns ∧
    (calculateImputationStats ageTable ageTable ["age"]).missing_data_rate =
      round2
        (((calculateImputationStats ageTable ageTable ["age"]).total_imputations : ℚ) /
          (((calculateImputationStats ageTable ageTable ["age"]).total_rows *
            (calculateImputationStats ageTable ageTable ["age"]).numeric_columns : ℕ) : ℚ) *
          100) :=
  ⟨by decide, (missing_data_rate_formula ageTable ageTable ["age"]).2 (by decide)⟩

/-- C5, counterexample: the claim "a column is numeric iff it has at least
one value interpretable as a number and every non-missing cell is so
interpretable" is false: a column of only empty fields has no
interpretable value at all, yet `read_csv` types it `float64` (all NaN)
and `select_dtypes` counts it as numeric. -/
theorem all_missing_column_is_numeric :
    (inferColumn "empty" [none]).isNumeric = true ∧
    ([(none : Option String)].any (fun t => t.isSome)) = false := by
  decide

/-- C5, amended: a column is classified numeric iff every non-missing cell
is interpretable as a number; in particular an entirely-missing column is
(vacuously) counted as numeric. -/
theorem numeric_iff_all_tokens_numeric (nm : String) (raw : List (Option String)) :
    (inferColumn nm raw).isNumeric = true ↔
      ∀ s : String, some s ∈ raw → (parseNum s).isSome = true := by
  rw [isNumeric_inferColumn]
  rw [List.all_eq_true]
  constructor
  · intro h s hs
    have := h (some s) hs
    simpa [tokOk] using this
  · intro h t ht
    cases t with
    | none => rfl
    | some s => exact h s ht

lemma processTable_intTable : processTable intTable = .ok intResult := by
  simp [processTable, intTable, intResult, Table.numericNames, Column.isNumeric,
    Table.numRows, imputeColumn, imputeNumData, hasNone, listMean,
    calculateImputationStats, Table.findData, ColData.missingCount,
    ColData.meanOrZero, round2, previewRows, cellJson, Table.rowKind, ColData.missingFlags,
    imputationFlags, List.range, List.range.loop, ColData.length]
  norm_num

/-- C6: a numeric column containing no missing values is left identical
to the input by `impute`, and the report gives it an imputed count of 0. -/
theorem no_missing_numeric_column_unchanged (t : Table) (r : ProcessResult)
    (c : Column) (j : ℕ) (h : processTable t = .ok r)
    (hnodup : (t.cols.map (fun x => x.name)).Nodup)
    (hc : c ∈ t.cols) (hnum : c.isNumeric = true)
    (hmiss : c.data.hasMissing = false)
    (hj : t.cols[j]? = some c) :
    r.processed.cols[j]? = some c ∧
    List.lookup c.name r.stats.imputed_counts = some 0 := by
  obtain ⟨-, hproc, hstats, -, -⟩ := processTable_ok h
  constructor
  · rw [hproc]
    show (t.cols.map imputeColumn)[j]? = _
    rw [List.getElem?_map, hj]
    simp [imputeColumn_of_no_missing c hmiss]
  · rw [hstats]
    show List.lookup c.name
        (t.numericNames.map (fun nm => (nm, (t.findData nm).missingCount))) = _
    rw [lookup_map_of_nodup (fun nm => (t.findData nm).missingCount) t.numericNames c.name
          (numericNames_nodup hnodup) (mem_numericNames hc hnum)]
    rw [findData_of_nodup hnodup hc, missingCount_eq_zero c.data hmiss]

/-- Witness for C6 on the integer table without missing cells. -/
theorem no_missing_numeric_column_unchanged_witness :
    processTable intTable = .ok intResult ∧
    intResult.processed.cols[0]? = some ⟨"x", .ints [1, 2]⟩ ∧
    List.lookup "x" intResult.stats.imputed_counts = some 0 :=
  ⟨processTable_intTable,
    no_missing_numeric_column_unchanged intTable intResult ⟨"x", .ints [1, 2]⟩ 0
      processTable_intTable (by decide) (List.mem_singleton.mpr rfl) rfl rfl rfl⟩

lemma processTable_ok_of_ne {t : Table} (h : t.numericNames ≠ []) :
    processTable t = .ok
      { stats := calculateImputationStats t ⟨t.cols.map imputeColumn⟩ t.numericNames
        preview_data := previewRows ⟨t.cols.map imputeColumn⟩ 50
        imputation_flags := imputationFlags t t.numericNames 50
        processed := ⟨t.cols.map imputeColumn⟩ } := by
  unfold processTable
  rw [if_neg (by simpa [List.isEmpty_iff] using h)]

/-- C7, counterexample: idempotence as claimed is false.  On a table whose
numeric column is entirely missing, the first run succeeds and leaves the
column untouched, and re-running `impute` on the processed output reports
`total_imputations = 1`, not 0. -/
theorem second_impute_recounts_all_missing :
    (processTable allMissingTable).toOption.map
        (fun r => (processTable r.processed).toOption.map
          (fun r2 => r2.stats.total_imputations))
      = some (some 1) := by
  simp [processTable_allMissingTable, Except.toOption]

/-- C7, amended: for every table on which `impute` succeeds, re-running
`impute` on the processed output succeeds and returns the processed table
unchanged; the second run reports `total_imputations = 0` provided (under
the unique-column-names invariant) every column of the original table is
fillable, i.e. no numeric column is entirely missing (the missing cells
of an entirely-missing numeric column survive processing and are counted
again, as the counterexample shows). -/
theorem impute_idempotent_on_fillable (t : Table) (r : ProcessResult)
    (h : processTable t = .ok r) :
    ∃ r2 : ProcessResult, processTable r.processed = .ok r2 ∧
      r2.processed = r.processed ∧
      ((t.cols.map (fun x => x.name)).Nodup →
        (∀ c ∈ t.cols, c.data.fillable = true) →
        r2.stats.total_imputations = 0) := by
  obtain ⟨hne, hproc, -, -, -⟩ := processTable_ok h
  have hmapmap : (t.cols.map imputeColumn).map imputeColumn = t.cols.map imputeColumn := by
    rw [List.map_map]
    exact List.map_congr_left (fun c _ => imputeColumn_idem c)
  have hnames : (Table.mk (t.cols.map imputeColumn)).numericNames = t.numericNames :=
    numericNames_map_impute t
  have hne2 : (Table.mk (t.cols.map imputeColumn)).numericNames ≠ [] := by
    rw [hnames]
    exact hne
  refine ⟨_, by rw [hproc]; exact processTable_ok_of_ne hne2, ?_, ?_⟩
  · show Table.mk ((Table.mk (t.cols.map imputeColumn)).cols.map imputeColumn) = r.processed
    rw [hproc]
    exact congrArg Table.mk hmapmap
  · intro hnodup hfill
    show (((Table.mk (t.cols.map imputeColumn)).numericNames.map
        (fun nm => (nm, ((Table.mk (t.cols.map imputeColumn)).findData nm).missingCount))).map
          (fun p => p.2)).sum = 0
    rw [List.map_map]
    apply List.sum_eq_zero
    intro x hx
    rcases List.mem_map.mp hx with ⟨nm, hnm, hxeq⟩
    rw [hnames] at hnm
    rcases List.mem_map.mp hnm with ⟨c, hcf, hcname⟩
    have hcmem : c ∈ t.cols := (List.mem_filter.mp hcf).1
    have hcnum : c.isNumeric = true := by simpa using (List.mem_filter.mp hcf).2
    rw [← hxeq]
    show ((Table.mk (t.cols.map imputeColumn)).findData nm).missingCount = 0
    rw [← hcname, findData_map_impute hnodup hcmem]
    exact missingCount_impute_eq_zero c hcnum (hfill c hcmem)

/-- Witness for the amended C7 at the spec's scenario table, with the
unique-names and fillability side conditions discharged there. -/
theorem impute_idempotent_on_fillable_witness :
    processTable ageTable = .ok ageResult ∧
    (∃ r2 : ProcessResult, processTable ageResult.processed = .ok r2 ∧
      r2.processed = ageResult.processed ∧ r2.stats.total_imputations = 0) := by
  obtain ⟨r2, h1, h2, h3⟩ :=
    impute_idempotent_on_fillable ageTable ageResult processTable_ageTable
  exact ⟨processTable_ageTable, r2, h1, h2, h3 (by decide) (by decide)⟩

lemma processHeap_ageTable :
    processHeap [ageTable] 0 = .ok ([ageTable, ageResult.processed], 1, ageResult.stats) := by
  simp [processHeap, heapGet, heapSet, heapFillLoop, heapFillStep, ageTable, ageResult,
    Table.numericNames, Column.isNumeric, Table.numRows, imputeColumn, imputeNumData,
    hasNone, listMean, calculateImputationStats, Table.findData, ColData.missingCount,
    ColData.meanOrZero, round2, ColData.length]
  norm_num

/-- C8: `impute` never mutates the original frame.  `process_file` copies
the frame (`original_df.copy()`) and every in-place `fillna` writes
through the copy's reference, so after a successful run the object at the
original's address is unchanged — cells and missingness pattern alike. -/
theorem impute_never_mutates_original (h : Heap) (orig : ℕ)
    (res : Heap × ℕ × Report) (horig : orig < h.length)
    (hres : processHeap h orig = .ok res) :
    heapGet res.1 orig = heapGet h orig := by
  simp only [processHeap] at hres
  by_cases he : ((heapGet (h ++ [heapGet h orig]) h.length).numericNames).isEmpty = true
  · rw [if_pos he] at hres
    exact absurd hres (by simp)
  · rw [if_neg he] at hres
    have hr := Except.ok.inj hres
    have h1 : res.1 = heapFillLoop (h ++ [heapGet h orig]) h.length
        (heapGet (h ++ [heapGet h orig]) h.length).cols.length := by
      rw [← hr]
    rw [h1]
    have hneq : h.length ≠ orig := (Nat.ne_of_lt horig).symm
    rw [heapFillLoop_frame _ _ _ _ hneq]
    exact heapGet_append_lt h _ orig horig

/-- Witness for C8 on a one-object heap holding the scenario table. -/
theorem impute_never_mutates_original_witness :
    0 < ([ageTable] : Heap).length ∧
    processHeap [ageTable] 0 = .ok ([ageTable, ageResult.processed], 1, ageResult.stats) ∧
    heapGet ([ageTable, ageResult.processed] : Heap) 0 = heapGet [ageTable] 0 :=
  ⟨by decide, processHeap_ageTable,
    impute_never_mutates_original [ageTable] 0
      ([ageTable, ageResult.processed], 1, ageResult.stats) (by decide) processHeap_ageTable⟩

/-- C9, counterexample: "integer-valued numeric cells serialize as
integers" is false.  In the scenario preview the first `age` cell holds
the integer value 25, but the column has float dtype, so the cell
serializes as floating point, not as an integer. -/
theorem integer_valued_float_cell_serializes_as_float :
    (processTable ageTable).toOption.map
        (fun r => r.preview_data.head?.map (fun row => row.head?))
      = some (some (some ("age", JsonVal.float 25))) ∧
    (25 : ℚ).den = 1 ∧ (JsonVal.float 25).isIntVal = false := by
  refine ⟨?_, by norm_num, rfl⟩
  rw [processTable_ageTable]
  rfl

/-- C9, amended: `preview` returns exactly the first `min(limit, rows)`
rows, each a mapping from column name to serialized value, and
serialization follows the common dtype `iterrows` gives each row: in a
frame of only integer columns, cells serialize as integers; in an
all-numeric frame with a float column, missing cells serialize as null
and every value — integer-column cells and integral values included — as
floating point; in a frame with an object column, missing cells serialize
as null and every other cell as text. -/
theorem preview_serializes_by_dtype (p : Table) (limit i : ℕ)
    (hrect : p.Rectangular) (hi : i < min limit p.numRows) :
    (previewRows p limit).length = min limit p.numRows ∧
    (previewRows p limit)[i]? =
      some (p.cols.map (fun c => (c.name, cellJson p.rowKind c i))) ∧
    ∀ c ∈ p.cols,
      (p.rowKind = .asInt → ∀ l, c.data = .ints l →
        ∃ n : ℤ, l[i]? = some n ∧ cellJson p.rowKind c i = .int n) ∧
      (p.rowKind = .asFloat →
        (∀ l, c.data = .ints l →
          ∃ n : ℤ, l[i]? = some n ∧ cellJson p.rowKind c i = .float (n : ℚ)) ∧
        (∀ l, c.data = .floats l → ∃ v : Option ℚ, l[i]? = some v ∧
          cellJson p.rowKind c i = v.elim .null .float)) ∧
      (p.rowKind = .asObj →
        (∀ l, c.data = .ints l →
          ∃ n : ℤ, l[i]? = some n ∧ cellJson p.rowKind c i = .str (toString n)) ∧
        (∀ l, c.data = .floats l → ∃ v : Option ℚ, l[i]? = some v ∧
          cellJson p.rowKind c i = v.elim .null (fun q => .str (floatStr q))) ∧
        (∀ l, c.data = .strs l → ∃ v : Option String, l[i]? = some v ∧
          cellJson p.rowKind c i = v.elim .null .str)) := by
  refine ⟨previewRows_length p limit, ?_, ?_⟩
  · unfold previewRows
    rw [List.getElem?_map, List.getElem?_range hi]
    rfl
  · intro c hc
    have hi2 : i < p.numRows := lt_of_lt_of_le hi (min_le_right limit p.numRows)
    have hlen : c.data.length = p.numRows := hrect c hc
    obtain ⟨nm, d⟩ := c
    refine ⟨?_, ?_, ?_⟩
    · intro hk l heq
      have heq' : d = ColData.ints l := heq
      subst heq'
      have hil : i < l.length := by
        have hll : l.length = p.numRows := by simpa [ColData.length] using hlen
        rw [hll]
        exact hi2
      refine ⟨l[i], List.getElem?_eq_getElem hil, ?_⟩
      rw [hk]
      simp [cellJson, List.getElem?_eq_getElem hil]
    · intro hk
      constructor
      · intro l heq
        have heq' : d = ColData.ints l := heq
        subst heq'
        have hil : i < l.length := by
          have hll : l.length = p.numRows := by simpa [ColData.length] using hlen
          rw [hll]
          exact hi2
        refine ⟨l[i], List.getElem?_eq_getElem hil, ?_⟩
        rw [hk]
        simp [cellJson, List.getElem?_eq_getElem hil]
      · intro l heq
        have heq' : d = ColData.floats l := heq
        subst heq'
        have hil : i < l.length := by
          have hll : l.length = p.numRows := by simpa [ColData.length] using hlen
          rw [hll]
          exact hi2
        refine ⟨l[i], List.getElem?_eq_getElem hil, ?_⟩
        rw [hk]
        simp only [cellJson, List.getElem?_eq_getElem hil]
        cases hv : l[i] <;> simp [hv]
    · intro hk
      refine ⟨?_, ?_, ?_⟩
      · intro l heq
        have heq' : d = ColData.ints l := heq
        subst heq'
        have hil : i < l.length := by
          have hll : l.length = p.numRows := by simpa [ColData.length] using hlen
          rw [hll]
          exact hi2
        refine ⟨l[i], List.getElem?_eq_getElem hil, ?_⟩
        rw [hk]
        simp [cellJson, List.getElem?_eq_getElem hil]
      · intro l heq
        have heq' : d = ColData.floats l := heq
        subst heq'
        have hil : i < l.length := by
          have hll : l.length = p.numRows := by simpa [ColData.length] using hlen
          rw [hll]
          exact hi2
        refine ⟨l[i], List.getElem?_eq_getElem hil, ?_⟩
        rw [hk]
        simp only [cellJson, List.getElem?_eq_getElem hil]
        cases hv : l[i] <;> simp [hv]
      · intro l heq
        have heq' : d = ColData.strs l := heq
        subst heq'
        have hil : i < l.length := by
          have hll : l.length = p.numRows := by simpa [ColData.length] using hlen
          rw [hll]
          exact hi2
        refine ⟨l[i], List.getElem?_eq_getElem hil, ?_⟩
        rw [hk]
        simp only [cellJson, List.getElem?_eq_getElem hil]
        cases hv : l[i] <;> simp [hv]

/-- Witness for the amended C9 on the processed scenario table, whose
rows carry the float64 common dtype. -/
theorem preview_serializes_by_dtype_witness :
    ageResult.processed.Rectangular ∧ 0 < min 50 ageResult.processed.numRows ∧
    ((previewRows ageResult.processed 50).length = min 50 ageResult.processed.numRows ∧
      (previewRows ageResult.processed 50)[0]? =
        some (ageResult.processed.cols.map
          (fun c => (c.name, cellJson ageResult.processed.rowKind c 0))) ∧
      ∀ c ∈ ageResult.processed.cols,
        (ageResult.processed.rowKind = .asInt → ∀ l, c.data = .ints l →
          ∃ n : ℤ, l[0]? = some n ∧
            cellJson ageResult.processed.rowKind c 0 = .int n) ∧
        (ageResult.processed.rowKind = .asFloat →
          (∀ l, c.data = .ints l → ∃ n : ℤ, l[0]? = some n ∧
            cellJson ageResult.processed.rowKind c 0 = .float (n : ℚ)) ∧
          (∀ l, c.data = .floats l → ∃ v : Option ℚ, l[0]? = some v ∧
            cellJson ageResult.processed.rowKind c 0 = v.elim .null .float)) ∧
        (ageResult.processed.rowKind = .asObj →
          (∀ l, c.data = .ints l → ∃ n : ℤ, l[0]? = some n ∧
            cellJson ageResult.processed.rowKind c 0 = .str (toString n)) ∧
          (∀ l, c.data = .floats l → ∃ v : Option ℚ, l[0]? = some v ∧
            cellJson ageResult.processed.rowKind c 0
              = v.elim .null (fun q => .str (floatStr q))) ∧
          (∀ l, c.data = .strs l → ∃ v : Option String, l[0]? = some v ∧
            cellJson ageResult.processed.rowKind c 0 = v.elim .null .str))) := by
  have hrect : ageResult.processed.Rectangular := by
    unfold Table.Rectangular Table.numRows
    decide
  have hpos : 0 < min 50 ageResult.processed.numRows := by decide
  exact ⟨hrect, hpos, preview_serializes_by_dtype ageResult.processed 50 0 hrect hpos⟩

lemma missingFlags_length (d : ColData) : d.missingFlags.length = d.length := by
  cases d <;> simp [ColData.missingFlags, ColData.length]

/-- C10: the imputation flags are computed strictly from the original
table (the flags field literally equals a function of the original alone,
so two runs over the same original agree on it no matter the processed
frame); every numeric column contributes a flag sequence of the same
truncated length as the preview, whose k-th entry is true exactly when the
k-th original cell of that column is missing (always false for an
integer-dtype column, which cannot hold NaN). -/
theorem imputation_flags_from_original (t : Table) (r : ProcessResult) (c : Column)
    (h : processTable t = .ok r)
    (hnodup : (t.cols.map (fun x => x.name)).Nodup)
    (hrect : t.Rectangular) (hc : c ∈ t.cols) (hnum : c.isNumeric = true) :
    r.imputation_flags = imputationFlags t t.numericNames 50 ∧
    (c.name, (c.data.missingFlags).take 50) ∈ r.imputation_flags ∧
    ((c.data.missingFlags).take 50).length = r.preview_data.length ∧
    (∀ l, c.data = .floats l → ∀ k : ℕ, k < ((c.data.missingFlags).take 50).length →
      (((c.data.missingFlags).take 50)[k]? = some true ↔ l[k]? = some none)) ∧
    (∀ l, c.data = .ints l → ∀ b ∈ (c.data.missingFlags).take 50, b = false) := by
  obtain ⟨-, hproc, -, hprev, hflags⟩ := processTable_ok h
  refine ⟨hflags, ?_, ?_, ?_, ?_⟩
  · rw [hflags]
    unfold imputationFlags
    exact List.mem_map.mpr ⟨c.name, mem_numericNames hc hnum,
      by rw [findData_of_nodup hnodup hc]⟩
  · rw [hprev, previewRows_length, List.length_take, missingFlags_length,
      hrect c hc, numRows_map_impute]
  · intro l heq k hk
    rw [List.length_take, missingFlags_length] at hk
    have hk50 : k < 50 := lt_of_lt_of_le hk (min_le_left _ _)
    have hkl : k < c.data.length := lt_of_lt_of_le hk (min_le_right _ _)
    rw [List.getElem?_take_of_lt hk50]
    rw [heq] at hkl ⊢
    simp only [ColData.length] at hkl
    show (l.map Option.isNone)[k]? = some true ↔ l[k]? = some none
    rw [List.getElem?_map, List.getElem?_eq_getElem hkl]
    simp [Option.isNone_iff_eq_none]
  · intro l heq b hb
    rw [heq] at hb
    have hb2 : b ∈ l.map (fun _ => false) := List.take_subset _ _ hb
    rcases List.mem_map.mp hb2 with ⟨x, hx, hbx⟩
    exact hbx.symm

/-- Witness for C10 at the spec's scenario table. -/
theorem imputation_flags_from_original_witness :
    processTable ageTable = .ok ageResult ∧ ageTable.Rectangular ∧
    (ageResult.imputation_flags = imputationFlags ageTable ageTable.numericNames 50 ∧
      ("age", ((ColData.floats [some 25, none, some 35, none]).missingFlags).take 50) ∈
        ageResult.imputation_flags ∧
      (((ColData.floats [some 25, none, some 35, none]).missingFlags).take 50).length =
        ageResult.preview_data.length ∧
      (∀ l, (ColData.floats [some 25, none, some 35, none]) = .floats l → ∀ k : ℕ,
        k < (((ColData.floats [some 25, none, some 35, none]).missingFlags).take 50).length →
        ((((ColData.floats [some 25, none, some 35, none]).missingFlags).take 50)[k]?
            = some true ↔ l[k]? = some none)) ∧
      (∀ l, (ColData.floats [some 25, none, some 35, none]) = .ints l →
        ∀ b ∈ ((ColData.floats [some 25, none, some 35, none]).missingFlags).take 50,
          b = false)) := by
  have hrect : ageTable.Rectangular := by
    unfold Table.Rectangular Table.numRows
    decide
  exact ⟨processTable_ageTable, hrect,
    imputation_flags_from_original ageTable ageResult
      ⟨"age", .floats [some 25, none, some 35, none]⟩ processTable_ageTable
      (by decide) hrect (List.mem_singleton.mpr rfl) rfl⟩

/-- Witness for the amended C5 on the all-empty raw column. -/
theorem numeric_iff_all_tokens_numeric_witness :
    (inferColumn "empty" ([none] : List (Option String))).isNumeric = true ↔
      ∀ s : String, some s ∈ ([none] : List (Option String)) →
        (parseNum s).isSome = true :=
  numeric_iff_all_tokens_numeric "empty" [none]
